import Mathlib

/-!
# Verification of the factory log/record reconciliation engine

Shallow embedding of the `all.factory` backend (Python) in Lean 4:

* `backend/utils/analysis.py`   — timestamp normalizer, fuzzy matcher, defect detectors
* `backend/utils/mmi_parser.py` — equipment-log line parsing and VALUES tokenizer
* `backend/utils/sql_parser.py` — VALUES tokenizer (duplicate copy)
* `backend/routers/cleanup.py`  — change ledger operations and materialization
* `backend/routers/analytics.py`— serial/cycle analyzer

Python strings are modelled as Lean `String` (a wrapper around `List Char`);
all inputs exercised here are ASCII so `byte-for-byte` equals
character-for-character.  Python `None`-able cell values are modelled as
`Option String`: `none` stands uniformly for Python `None` / pandas `NaN`
(the code treats them alike through `pd.isna`).  Python `dict`s coming from
table rows are modelled as association lists with the keys in insertion
order.
-/

/-! ## Small Python-semantics helpers -/

/-- Drop leading and trailing whitespace from a character list. -/
def trimChars (l : List Char) : List Char :=
  ((l.dropWhile Char.isWhitespace).reverse.dropWhile Char.isWhitespace).reverse

/-- Python `str.strip()` (ASCII whitespace suffices for the data involved). -/
def pyStrip (s : String) : String := ⟨trimChars s.data⟩

/-- Python `str.upper()` (ASCII). -/
def pyUpper (s : String) : String := ⟨s.data.map Char.toUpper⟩

/-- Scanner for `removeSub2`; the `Bool` is "the previous character was an
unconsumed `c1`". -/
def removeSub2Aux (c1 c2 : Char) : Bool → List Char → List Char
  | pending, [] => if pending then [c1] else []
  | pending, b :: rest =>
    if pending then
      if b = c2 then removeSub2Aux c1 c2 false rest
      else if b = c1 then c1 :: removeSub2Aux c1 c2 true rest
      else c1 :: b :: removeSub2Aux c1 c2 false rest
    else
      if b = c1 then removeSub2Aux c1 c2 true rest
      else b :: removeSub2Aux c1 c2 false rest

/-- Remove every (left-to-right, non-overlapping) occurrence of the two-char
pattern `c1 c2`, like Python `str.replace(c1c2, "")`: the `Bool` state of
the scan records an undecided preceding `c1`. -/
def removeSub2 (c1 c2 : Char) (l : List Char) : List Char := removeSub2Aux c1 c2 false l

/-- Scanner for `containsSub2`; the `Bool` is "the previous character was `c1`". -/
def containsSub2Aux (c1 c2 : Char) : Bool → List Char → Bool
  | _, [] => false
  | pending, b :: rest =>
    if pending ∧ b = c2 then true else containsSub2Aux c1 c2 (b = c1) rest

/-- Whether the two-char pattern `c1 c2` occurs as a contiguous substring,
like Python `c1c2 in s`. -/
def containsSub2 (c1 c2 : Char) (l : List Char) : Bool := containsSub2Aux c1 c2 false l

/-- Python `str.split(sep)` for a one-character separator (no maxsplit):
always returns at least one (possibly empty) piece. -/
def splitOnChar (sep : Char) : List Char → List (List Char)
  | [] => [[]]
  | c :: rest =>
    if c = sep then [] :: splitOnChar sep rest
    else
      match splitOnChar sep rest with
      | [] => [[c]]
      | g :: gs => (c :: g) :: gs

/-- Digits-to-number accumulator. -/
def natFromDigits (l : List Char) : Nat :=
  l.foldl (fun n c => n * 10 + (c.toNat - 48)) 0

/-- Python `int(s)`: strips surrounding whitespace, then an optional sign
followed by at least one digit.  (Python's underscore digit grouping is not
modelled; no input in this development contains it.) -/
def pyInt? (s : String) : Option Int :=
  let cs := trimChars s.data
  let signed : Int × List Char :=
    match cs with
    | c :: rest => if c = '-' then (-1, rest) else if c = '+' then (1, rest) else (1, cs)
    | [] => (1, [])
  if signed.2 ≠ [] ∧ signed.2.all Char.isDigit then
    some (signed.1 * (natFromDigits signed.2 : Int))
  else none

/-! ## Timestamp normalizer (`analysis.py:_normalize_time`, lines 533-557) -/

/-- `"PM" in t.strip().upper()` from `_normalize_time`. -/
def hasPM (t : String) : Bool := containsSub2 'P' 'M' (pyUpper (pyStrip t)).data

/-- `"AM" in t.strip().upper()` from `_normalize_time`. -/
def hasAM (t : String) : Bool := containsSub2 'A' 'M' (pyUpper (pyStrip t)).data

/-- The component list of `_normalize_time`:
`t.strip().upper().replace("AM","").replace("PM","").strip().replace(".",":").split(":")[:3]`. -/
def timeParts (t : String) : List (List Char) :=
  let u := pyUpper (pyStrip t)
  let stripped := (pyStrip ⟨removeSub2 'P' 'M' (removeSub2 'A' 'M' u.data)⟩).data
  (splitOnChar ':' (stripped.map (fun c => if c = '.' then ':' else c))).take 3

/-- The `try` block of `_normalize_time`: parse hour, minute and second from
the (exactly three) components; `none` both when there are fewer than three
components (the explicit `len(parts) < 3` early return) and when some `int()`
call raises (the silent `except` branch). -/
def normalizeHMS? (t : String) : Option (Int × Int × Int) :=
  match timeParts t with
  | [p0, p1, p2] =>
    match pyInt? ⟨p0⟩, pyInt? ⟨p1⟩ with
    | some h, some m =>
      if p2 = [] then some (h, m, 0)
      else
        match pyInt? ⟨(splitOnChar '.' p2).headD []⟩ with
        | some s => some (h, m, s)
        | none => none
    | _, _ => none
  | _ => none

/-- `analysis.py:_normalize_time`: seconds since midnight, with the 12-hour
adjustment; every failure path returns `0` (the function is total and never
raises). -/
def _normalize_time (t : String) : Int :=
  match normalizeHMS? t with
  | none => 0
  | some (h, m, s) =>
    let hour : Int := if hasPM t ∧ h ≠ 12 then h + 12 else if hasAM t ∧ h = 12 then 0 else h
    hour * 3600 + m * 60 + s

/-- `analysis.py:_times_close`: `abs(normalize(t1) - normalize(t2)) <= window`.
The surrounding `try/except` in the source can never fire because
`_normalize_time` is total, so the embedding has no failure branch. -/
def _times_close (t1 t2 : String) (window_seconds : Int) : Bool :=
  decide (|_normalize_time t1 - _normalize_time t2| ≤ window_seconds)

/-! ### Claim-side grammar predicates (modelled from the spec's words)

The spec's §4.1 contract names two accepted grammars: `H:MM:SS AM/PM`
(12-hour, hour `1..12`, one or two digits) and `HH:MM:SS` (24-hour).  These
definitions follow the spec's words, not the source — the source has no such
validation — and exist to state claim C3. -/

/-- Digit value of an ASCII digit character. -/
def digitVal (c : Char) : Nat := c.toNat - 48

/-- Modelled from the spec: the `HH:MM:SS` 24-hour grammar
(two-digit fields, hour `00..23`, minute and second `00..59`). -/
def matches24h (s : String) : Bool :=
  match s.data with
  | [h1, h2, c1, m1, m2, c2, s1, s2] =>
    h1.isDigit && h2.isDigit && (c1 == ':') && m1.isDigit && m2.isDigit && (c2 == ':') &&
    s1.isDigit && s2.isDigit &&
    decide (digitVal h1 * 10 + digitVal h2 ≤ 23) &&
    decide (digitVal m1 * 10 + digitVal m2 ≤ 59) &&
    decide (digitVal s1 * 10 + digitVal s2 ≤ 59)
  | _ => false

/-- Helper for `matches12h`: `MM:SS AM/PM` tail after the hour and colon. -/
def tail12Ok (l : List Char) : Bool :=
  match l with
  | [m1, m2, c2, s1, s2, sp, x, y] =>
    m1.isDigit && m2.isDigit && (c2 == ':') && s1.isDigit && s2.isDigit && (sp == ' ') &&
    ((x == 'A') || (x == 'P')) && (y == 'M') &&
    decide (digitVal m1 * 10 + digitVal m2 ≤ 59) &&
    decide (digitVal s1 * 10 + digitVal s2 ≤ 59)
  | _ => false

/-- Modelled from the spec: the `H:MM:SS AM/PM` 12-hour grammar, hour `1..12`
written with one or two digits. -/
def matches12h (s : String) : Bool :=
  match s.data with
  | h1 :: ':' :: rest =>
    h1.isDigit && decide (1 ≤ digitVal h1) && tail12Ok rest
  | h1 :: h2 :: ':' :: rest =>
    h1.isDigit && h2.isDigit &&
    decide (1 ≤ digitVal h1 * 10 + digitVal h2) && decide (digitVal h1 * 10 + digitVal h2 ≤ 12) &&
    tail12Ok rest
  | _ => false

/-! ## Tabular rows and change proposals -/

/-- A table cell: `none` models Python `None` / pandas `NaN` uniformly
(the row dicts are produced with `df.where(pd.notnull(df), None)`). -/
abbrev Value := Option String

/-- A table row: a Python dict in insertion order, keyed by column name. -/
abbrev Row := List (String × Value)

/-- First-match association lookup (Python dicts have unique keys; on such
rows this is exactly dict access). -/
def lookupKV : Row → String → Option Value
  | [], _ => none
  | kv :: rest, k => if kv.1 = k then some kv.2 else lookupKV rest k

/-- Python `row.get(k)`: `None` both when the key is absent and when the
stored value is `None` (the two are indistinguishable through `.get`). -/
def pyGet (r : Row) (k : String) : Value :=
  match lookupKV r k with
  | some v => v
  | none => none

/-- Python `str(x)` on a cell value (`str(None) = "None"`). -/
def pyStr (v : Value) : String :=
  match v with
  | none => "None"
  | some s => s

/-- Python truthiness of a cell value: `None` and `""` are falsy. -/
def truthy (v : Value) : Bool :=
  match v with
  | none => false
  | some s => s ≠ ""

/-- Python `dict` assignment `d[k] = v`: overwrite in place if the key
exists, else append at the end. -/
def dictSet (r : Row) (k : String) (v : Value) : Row :=
  if r.any (fun kv => kv.1 = k) then r.map (fun kv => if kv.1 = k then (k, v) else kv)
  else r ++ [(k, v)]

/-- A change proposal (`analysis.py` module docstring, lines 4-21).  Python
represents it as a dict whose key set varies by detector; here it is one
structure with every claim-relevant key, defaulted for detectors that do not
set it.  The human-readable `description` string (presentation only, used by
no claim and no consumer in the source) is omitted. -/
structure Change where
  id : String := ""
  issue_type : String := ""
  timestamp : String := ""
  action : String := ""
  status : String := ""
  sql_row_id : Value := none
  sql_before : Option Row := none
  sql_after : Option Row := none
  suggested_value : Value := none
  duplicate_of : Value := none
  fieldName : String := ""
  current_index : Option Nat := none
  expected_index : Option Nat := none
  sn_index : Option Nat := none
  index_gap : Option Int := none
  repeat_count : Option Nat := none
  occurrence : Option Nat := none
  first_line_number : Option Nat := none
  mmi_evidence : List String := []
  mmi_line_numbers : List Nat := []
deriving Repr, DecidableEq

/-! ## Change ledger operations (`cleanup.py:approve_change` /
`reject_change`, lines 139-156)

The endpoints scan `store["changes"]` for the first change with the given
id, set its status and return; if the scan finds nothing they raise a 404
and the store is left untouched.  `approveFound` models the scan (`none` =
`HTTPException(404)`), and `approveEndpoint` models the endpoint's effect on
the stored list together with whether the id was found. -/

/-- Set the first change whose `id` matches to `approved`; `none` when no
change matches (the 404 path). -/
def approveFound : List Change → String → Option (List Change)
  | [], _ => none
  | c :: rest, cid =>
    if c.id = cid then some ({ c with status := "approved" } :: rest)
    else (approveFound rest cid).map (c :: ·)

/-- Set the first change whose `id` matches to `rejected`; `none` when no
change matches (the 404 path). -/
def rejectFound : List Change → String → Option (List Change)
  | [], _ => none
  | c :: rest, cid =>
    if c.id = cid then some ({ c with status := "rejected" } :: rest)
    else (rejectFound rest cid).map (c :: ·)

/-- Effect of `POST /changes/{id}/approve` on the stored change list, with a
flag telling whether the id was found (false = 404 raised, store untouched). -/
def approveEndpoint (changes : List Change) (cid : String) : List Change × Bool :=
  match approveFound changes cid with
  | some l => (l, true)
  | none => (changes, false)

/-- Effect of `POST /changes/{id}/reject` on the stored change list. -/
def rejectEndpoint (changes : List Change) (cid : String) : List Change × Bool :=
  match rejectFound changes cid with
  | some l => (l, true)
  | none => (changes, false)

/-! ## Quote-aware VALUES tokenizer
(`sql_parser.py:parse_insert_values`, lines 60-87, and the identical
`mmi_parser.py:_parse_values_string`, lines 126-153) -/

/-- The fixed 15-column schema both copies zip the tokenized values against. -/
def VALUES_FIELDS : List String :=
  ["DATE", "LOTID", "PSA_TAPE_PIC",
   "POWER_BOARD_SN", "POWER_BOARD_SN_PIC",
   "POWER_BOARD_PRS", "POWER_BOARD_PRS_PIC", "POWER_BOARD_PSA_PIC",
   "BATTERY_SN", "BATTERY_SN_PIC",
   "BATTERY_PRS", "BATTERY_PRS_PIC", "BATTERY_PSA_PIC",
   "TEMP", "HUMIDITY"]

/-- The single-quote character (ASCII 39). -/
def quoteChar : Char := Char.ofNat 39

/-- Python `s.strip().strip("'")`: whitespace first, then every leading and
trailing single quote. -/
def stripPart (l : List Char) : List Char :=
  let t := trimChars l
  ((t.dropWhile (fun c => c = quoteChar)).reverse.dropWhile (fun c => c = quoteChar)).reverse

/-- The character loop of the tokenizer: state is (finished parts, current
part, inside-quotes flag); quotes toggle the flag and are not emitted, a
comma outside quotes closes the current part. -/
def tokenStep (st : List (List Char) × List Char × Bool) (c : Char) :
    List (List Char) × List Char × Bool :=
  let (parts, current, inQ) := st
  if c = quoteChar ∧ ¬ inQ then (parts, current, true)
  else if c = quoteChar ∧ inQ then (parts, current, false)
  else if c = ',' ∧ ¬ inQ then (parts ++ [stripPart current], [], inQ)
  else (parts, current ++ [c], inQ)

/-- The comma-split produced by the tokenizer loop (always ≥ 1 part: the
final `parts.append(current...)` runs unconditionally). -/
def tokenizeValues (values_str : String) : List String :=
  let st := values_str.data.foldl tokenStep ([], [], false)
  (st.1 ++ [stripPart st.2.1]).map String.mk

/-- `sql_parser.py:parse_insert_values`: `dict(zip(fields, parts))` — the
zip truncates to the shorter list, so extra values are dropped and missing
values leave trailing columns absent. -/
def parse_insert_values (values_str : String) : List (String × String) :=
  VALUES_FIELDS.zip (tokenizeValues values_str)

/-- `mmi_parser.py:_parse_values_string`: a byte-identical copy of
`parse_insert_values` living in the MMI parser module. -/
def _parse_values_string (values_str : String) : List (String × String) :=
  VALUES_FIELDS.zip (tokenizeValues values_str)

/-! ## MMI events and detector helpers (`analysis.py`) -/

/-- One parsed MMI event as the detectors consume it.  The Python event dict
also carries a per-type `data` mapping; of it only `data.get("values", "")`
(the raw VALUES payload of a `SQL_INSERT`, used by `find_repeated_inserts`)
is needed by the claims, so it is inlined as the `values` field. -/
structure MmiEvent where
  line_number : Nat := 0
  timestamp : String := ""
  raw : String := ""
  content : String := ""
  event_type : String := ""
  values : String := ""
deriving Repr, DecidableEq

/-- `analysis.py:_extract_time`: time-of-day string of a `DATE` cell.  The
`hasattr(date_value, "strftime")` branch (a true datetime object) is out of
the string-cell model; datetime cells are represented by their
`"YYYY-MM-DD HH:MM:SS"` string form, which the string branch reduces the
same way (`s.split(" ")[1].split(".")[0]`). -/
def _extract_time (date_value : Value) : String :=
  match date_value with
  | none => ""
  | some s =>
    if s.data.contains ' ' then
      ⟨(splitOnChar '.' ((splitOnChar ' ' s.data).getD 1 [])).headD []⟩
    else s

/-- `analysis.py:_clean_row`: per-key map sending pandas `NaN` to `None` and
datetimes to their ISO string.  In this model cells are already
`Option String` (with `none` for `NaN`/`None`) and datetimes are already
strings, so the function is the identity on rows. -/
def _clean_row (row : Row) : Row := row

/-- `analysis.py:_extract_image_index`: trailing `_(\d+)$` of an image
filename; `None` for an absent/empty cell or when the pattern is missing. -/
def trailingIndexOf (s : String) : Option Nat :=
  let rev := s.data.reverse
  let ds := rev.takeWhile Char.isDigit
  match rev.drop ds.length with
  | c :: _ => if ds ≠ [] ∧ c = '_' then some (natFromDigits ds.reverse) else none
  | [] => none

/-- `analysis.py:_extract_image_index` (outer guard plus regex search). -/
def _extract_image_index (v : Value) : Option Nat :=
  match v with
  | none => none
  | some s => if s = "" then none else trailingIndexOf s

/-- Python `f"{n:04d}"` for `n ≥ 0`. -/
def pad4 (n : Nat) : String :=
  let s := toString n
  ⟨List.replicate (4 - s.length) '0'⟩ ++ s

/-- `re.sub(r"_\d+$", "_" ++ pad4 e, s)`: rewrite the trailing `_digits`
group when present, else return `s` unchanged. -/
def rewriteTrailingIndex (s : String) (e : Nat) : String :=
  let rev := s.data.reverse
  let ds := rev.takeWhile Char.isDigit
  match rev.drop ds.length with
  | c :: restRev =>
    if ds ≠ [] ∧ c = '_' then ⟨restRev.reverse⟩ ++ "_" ++ pad4 e else s
  | [] => s

/-- Python `str(row.get(k, ""))`: the str of the stored value when the key
is present (so a stored `None` becomes `"None"`), else the `""` default. -/
def pyStrGetD (r : Row) (k : String) : String :=
  match lookupKV r k with
  | some v => pyStr v
  | none => ""

/-- `analysis.py:_find_inserts_near_time` (window 10s). -/
def _find_inserts_near_time (events : List MmiEvent) (timestamp : String) : List MmiEvent :=
  events.filter (fun e => e.event_type == "SQL_INSERT" && _times_close e.timestamp timestamp 10)

/-- `analysis.py:_find_camera_events_near_time` (window 30s). -/
def _find_camera_events_near_time (events : List MmiEvent) (timestamp : String) : List MmiEvent :=
  events.filter (fun e =>
    ["CAM2_SN", "CAM3_PRS", "CAM4_PSA_TAPE", "CAM2_PSA_POWER", "CAM2_PSA_BATTERY"].contains e.event_type
    && _times_close e.timestamp timestamp 30)

/-! ## Detector: duplicate adjacent rows
(`analysis.py:find_duplicate_rows`, lines 132-180) -/

/-- The adjacent-pair trigger: equal `str(DATE)` and equal key fields. -/
def dupPairCond (prev curr : Row) : Bool :=
  (pyStr (pyGet curr "DATE") == pyStr (pyGet prev "DATE")) &&
  (pyGet curr "POWER_BOARD_SN" == pyGet prev "POWER_BOARD_SN") &&
  (pyGet curr "BATTERY_SN" == pyGet prev "BATTERY_SN") &&
  (pyGet curr "PSA_TAPE_PIC" == pyGet prev "PSA_TAPE_PIC")

/-- The proposal `find_duplicate_rows` emits for a matching adjacent pair. -/
def mkDuplicateChange (mmi : List MmiEvent) (prev curr : Row) : Change :=
  let row_id := pyGet curr "ID"
  let timestamp := _extract_time (pyGet curr "DATE")
  let ins := _find_inserts_near_time mmi timestamp
  { id := "duplicate_" ++ pyStr row_id, issue_type := "DUPLICATE_INSERT",
    timestamp := timestamp, action := "DELETE", sql_row_id := row_id,
    sql_before := some (_clean_row curr), sql_after := none,
    duplicate_of := pyGet prev "ID",
    mmi_evidence := ins.map (·.raw), mmi_line_numbers := ins.map (·.line_number),
    status := "pending" }

/-- `analysis.py:find_duplicate_rows`: the loop `for i in range(1, len)`
visits exactly the adjacent pairs `(sql_data[i-1], sql_data[i])`. -/
def find_duplicate_rows (mmi : List MmiEvent) (sql_data : List Row) : List Change :=
  (sql_data.zip (sql_data.drop 1)).filterMap (fun pc =>
    if dupPairCond pc.1 pc.2 then some (mkDuplicateChange mmi pc.1 pc.2) else none)

/-! ## Detector: camera-2 index mismatch
(`analysis.py:find_cam2_index_mismatches`, lines 228-320) -/

/-- The proposal one side (power board or battery) of the per-row check
emits: `snKey`/`psaKey` name the SN-image and PSA-image columns, `tag` the
id prefix, `snIdx`/`psaIdx` the extracted indices.  Note the suggested
value is produced by rewriting the trailing index of the **SN** image
filename (`row.get(snKey, "")`), exactly as the source does. -/
def mkCam2Change (mmi : List MmiEvent) (row : Row) (tag snKey psaKey : String)
    (snIdx psaIdx : Nat) : Change :=
  let timestamp := _extract_time (pyGet row "DATE")
  let expected := snIdx + 6
  let cam := _find_camera_events_near_time mmi timestamp
  let suggested := rewriteTrailingIndex (pyStrGetD row snKey) expected
  let after := dictSet row psaKey (some suggested)
  { id := "cam2_" ++ tag ++ "_mismatch_" ++ pyStr (pyGet row "ID"),
    issue_type := "INDEX_MISMATCH", timestamp := timestamp,
    action := "UPDATE", sql_row_id := pyGet row "ID",
    sql_before := some (_clean_row row), sql_after := some (_clean_row after),
    fieldName := psaKey,
    current_index := some psaIdx, expected_index := some expected,
    sn_index := some snIdx, index_gap := some ((psaIdx : Int) - (snIdx : Int)),
    mmi_evidence := (cam.take 5).map (·.raw),
    mmi_line_numbers := (cam.take 5).map (·.line_number),
    status := "pending" }

/-- One side (power board or battery) of the per-row check: emit the UPDATE
proposal when both indices extract and their gap is not the expected +6. -/
def cam2SideChanges (mmi : List MmiEvent) (row : Row) (tag snKey psaKey : String) :
    List Change :=
  match _extract_image_index (pyGet row snKey), _extract_image_index (pyGet row psaKey) with
  | some snIdx, some psaIdx =>
    if (psaIdx : Int) - (snIdx : Int) ≠ 6 then
      [mkCam2Change mmi row tag snKey psaKey snIdx psaIdx]
    else []
  | _, _ => []

/-- `analysis.py:find_cam2_index_mismatches`: power-board check followed by
battery check, per row, concatenated over the table. -/
def find_cam2_index_mismatches (mmi : List MmiEvent) (sql_data : List Row) : List Change :=
  sql_data.flatMap (fun row =>
    cam2SideChanges mmi row "pb" "POWER_BOARD_SN_PIC" "POWER_BOARD_PSA_PIC" ++
    cam2SideChanges mmi row "bt" "BATTERY_SN_PIC" "BATTERY_PSA_PIC")

/-! ## Detector: repeated INSERT statements
(`analysis.py:find_repeated_inserts`, lines 440-508) -/

/-- The inner `while` condition: the candidate's VALUES payload equals the
group head's payload and its timestamp is within 30s **of the group head**
(`current` is pinned to `insert_events[i]` for the whole inner loop). -/
def repeatMatch (first e : MmiEvent) : Bool :=
  (e.values == first.values) && _times_close first.timestamp e.timestamp 30

/-- Proposals emitted for one group of ≥ 3 identical inserts: one per
occurrence `2..N`; the k-th repeat is matched against `affected_rows[k]`
(rows whose `DATE` time is within 60s of the group-head timestamp), giving
action `DELETE` when such a row exists and `FLAG` otherwise. -/
def emitRepeats (group : List MmiEvent) (sql_data : List Row) : List Change :=
  match group with
  | [] => []
  | first :: restG =>
    let timestamp := first.timestamp
    let affected := sql_data.filter (fun row =>
      _times_close (_extract_time (pyGet row "DATE")) timestamp 60)
    restG.enum.map (fun p =>
      let k := p.1 + 1
      let e := p.2
      let matched := affected[k]?
      { id := "repeated_" ++ toString e.line_number, issue_type := "REPEATED_INSERT",
        timestamp := e.timestamp,
        action := if matched.isSome then "DELETE" else "FLAG",
        sql_row_id := match matched with | some r => pyGet r "ID" | none => none,
        sql_before := matched.map _clean_row, sql_after := none,
        repeat_count := some (restG.length + 1), occurrence := some (k + 1),
        first_line_number := some first.line_number,
        mmi_evidence := ((first :: restG).take 10).map (·.raw),
        mmi_line_numbers := ((first :: restG).take 10).map (·.line_number),
        status := "pending" })

/-- The outer `while i < len(insert_events)` loop: take the maximal
head-anchored group, emit if it has ≥ 3 members, continue at the first
non-member (`i = j`).  The loop consumes at least one event per iteration,
so running it on fuel equal to the list length is exact (each recursive call
keeps `fuel ≥ length`: the remainder is a suffix of the tail). -/
def repeatLoop (sql_data : List Row) : Nat → List MmiEvent → List Change
  | 0, _ => []
  | _, [] => []
  | fuel + 1, e :: rest =>
    let g := rest.takeWhile (repeatMatch e)
    let r := rest.dropWhile (repeatMatch e)
    (if (e :: g).length ≥ 3 then emitRepeats (e :: g) sql_data else []) ++
      repeatLoop sql_data fuel r

/-- `analysis.py:find_repeated_inserts`. -/
def find_repeated_inserts (mmi : List MmiEvent) (sql_data : List Row) : List Change :=
  let ins := mmi.filter (fun e => e.event_type == "SQL_INSERT")
  if ins.length < 2 then [] else repeatLoop sql_data ins.length ins

/-! ## SQL materialization (`cleanup.py:export_sql`, lines 206-258)

The endpoint copies the uploaded DataFrame, collects `rows_to_delete`
(ids of approved DELETE changes, a set) and `updates` (per target id, the
after-fields that differ from the before snapshot, merged in change order),
applies each update through the boolean mask `df["ID"] == row_id`, and
finally drops the rows whose `ID` is in the delete set.  The DataFrame is
modelled as the list of its rows; the mask update is the per-row function
`applyFieldUpdates` (for a field already present in the row — an update
whose field named no existing column would instead create a new column in
pandas, a situation the C1 theorem's hypotheses exclude). -/

/-- Python truthiness of `change.get("sql_after")`: a dict is truthy iff
non-empty; `None`/absent is falsy. -/
def effectiveAfter (c : Change) : Option Row :=
  match c.sql_after with
  | some a => if a = [] then none else some a
  | none => none

/-- The changed-field extraction of `export_sql`:
`{key: v for key, v in after.items() if before.get(key) != v}`. -/
def changedFields (before after : Row) : Row :=
  after.filter (fun kv => pyGet before kv.1 != kv.2)

/-- Guard of the UPDATE branch of the change-collection loop. -/
def updMatches (c : Change) : Bool :=
  c.status == "approved" && (c.action == "UPDATE") && (effectiveAfter c).isSome

/-- Guard of the DELETE branch of the change-collection loop. -/
def delMatches (c : Change) : Bool :=
  c.status == "approved" && (c.action == "DELETE")

/-- The changed fields of one update change.  (An approved effective UPDATE
whose `sql_before` is `None` would raise `AttributeError` in the source; the
C1 theorem's hypotheses exclude it, so the `getD []` default is never the
operative case.) -/
def diffOf (c : Change) : Row := changedFields (c.sql_before.getD []) ((effectiveAfter c).getD [])

/-- The `rows_to_delete` set, as the list of collected ids (only membership
is ever used). -/
def approvedDeleteIds (changes : List Change) : List Value :=
  (changes.filter delMatches).map (fun c => c.sql_row_id)

/-- Python dict-update of an update-field mapping: assign each pair in
order, overwriting existing keys. -/
def dictMerge (d upd : Row) : Row := upd.foldl (fun acc kv => dictSet acc kv.1 kv.2) d

/-- The collection loop for one target id, with explicit accumulator. -/
def updatesForAux (rid : Value) (acc : Row) : List Change → Row
  | [] => acc
  | c :: rest =>
    updatesForAux rid
      (if updMatches c && (c.sql_row_id == rid) then dictMerge acc (diffOf c) else acc) rest

/-- `updates[row_id]` after the whole collection loop: the merge, in change
order, of the changed fields of every approved effective UPDATE targeting
`rid`. -/
def updatesFor (changes : List Change) (rid : Value) : Row :=
  updatesForAux rid [] changes

/-- Apply an update-field mapping to one row: each existing field whose key
is in the mapping takes the mapped value (`df.loc[mask, field] = value`). -/
def applyFieldUpdates (u : Row) (r : Row) : Row :=
  r.map (fun kv =>
    match lookupKV u kv.1 with
    | some v => (kv.1, v)
    | none => kv)

/-- List membership by value (the `.isin(rows_to_delete)` test). -/
def listHas (l : List Value) (v : Value) : Bool := l.any (fun x => x = v)

/-- `cleanup.py:export_sql` on the stored table rows: apply the collected
updates, then drop the deleted ids. -/
def export_sql (changes : List Change) (rows : List Row) : List Row :=
  (rows.map (fun r => applyFieldUpdates (updatesFor changes (pyGet r "ID")) r)).filter
    (fun r => ! listHas (approvedDeleteIds changes) (pyGet r "ID"))

/-! ## MMI materialization (`cleanup.py:export_mmi`, lines 261-295) and the
log parser's line numbering (`mmi_parser.py:parse_mmi_log`, lines 5-30) -/

/-- The `lines_to_remove` set: for every approved `DUPLICATE_INSERT` change
with at least two evidence line numbers, every evidence line number beyond
the first. -/
def linesToRemove (changes : List Change) : List Nat :=
  changes.foldl (fun acc c =>
    if c.status = "approved" ∧ c.issue_type = "DUPLICATE_INSERT" ∧ c.mmi_line_numbers.length ≥ 2
    then acc ++ c.mmi_line_numbers.drop 1 else acc) []

/-- `cleanup.py:export_mmi`: split the **raw** stored text on `"\n"` only
(no CR normalization here, unlike the parser), drop the 1-based positions in
the removal set, re-join with `"\n"`. -/
def export_mmi (mmi_raw : String) (changes : List Change) : String :=
  let lines := (splitOnChar '\n' mmi_raw.data).map String.mk
  let rm := linesToRemove changes
  String.intercalate "\n"
    (lines.enum.filterMap (fun p => if rm.contains (p.1 + 1) then none else some p.2))

/-- Scanner for `normalizeNewlines` (the parser's
`content.replace('\r\n', '\n').replace('\r', '\n')`: every CRLF pair and
every lone CR becomes one LF). -/
def normalizeNewlinesAux : Bool → List Char → List Char
  | pending, [] => if pending then ['\n'] else []
  | pending, b :: rest =>
    if pending then
      if b = '\n' then '\n' :: normalizeNewlinesAux false rest
      else if b = '\r' then '\n' :: normalizeNewlinesAux true rest
      else '\n' :: b :: normalizeNewlinesAux false rest
    else
      if b = '\r' then normalizeNewlinesAux true rest
      else b :: normalizeNewlinesAux false rest

/-- The parser normalization as a left-to-right scan; the `Bool` state is
"the previous character was a CR whose pairing with an LF is undecided". -/
def normalizeNewlines (l : List Char) : List Char := normalizeNewlinesAux false l

/-- One line accepted by the parser's bracket grammar
`\[([^\]]+)\](.+)` (anchored at the start of the stripped line). -/
structure ParsedLine where
  line_number : Nat
  timestamp : String
  content : String
  raw : String
deriving Repr, DecidableEq

/-- `re.match(r"\[([^\]]+)\](.+)", line)`: an opening bracket, a non-empty
bracket-free timestamp, the closing bracket, then non-empty content. -/
def matchBracketLine (l : List Char) : Option (List Char × List Char) :=
  match l with
  | '[' :: rest =>
    let ts := rest.takeWhile (fun c => c ≠ ']')
    match rest.dropWhile (fun c => c ≠ ']') with
    | ']' :: content => if ts ≠ [] ∧ content ≠ [] then some (ts, content) else none
    | _ => none
  | _ => none

/-- The line-numbering skeleton of `mmi_parser.py:parse_mmi_log`: normalize
newlines, split, strip each line, skip blank and non-matching lines, and
number every kept line by its 1-based position in the unfiltered normalized
list.  (The per-event `_classify`/`_extract_data` enrichment is omitted: no
claim depends on it.) -/
def parse_mmi_lines (content : String) : List ParsedLine :=
  ((splitOnChar '\n' (normalizeNewlines content.data)).map String.mk).enum.filterMap (fun p =>
    let line := pyStrip p.2
    if line = "" then none
    else
      match matchBracketLine line.data with
      | some tc => some { line_number := p.1 + 1, timestamp := ⟨tc.1⟩, content := ⟨tc.2⟩, raw := line }
      | none => none)

/-- Modelled from the spec: "Materializing the equipment log removes only
lines referenced by approved DUPLICATE_INSERT proposals' evidence line
numbers beyond the first occurrence — original file order and all
non-removed lines are preserved byte-for-byte", where lines and their
numbers are the parser's (CRLF/CR/LF-normalized) lines — the numbering the
evidence line numbers are expressed in. -/
def export_mmi_specModel (mmi_raw : String) (changes : List Change) : String :=
  let lines := (splitOnChar '\n' (normalizeNewlines mmi_raw.data)).map String.mk
  let rm := linesToRemove changes
  String.intercalate "\n"
    (lines.enum.filterMap (fun p => if rm.contains (p.1 + 1) then none else some p.2))

/-! ## Serial/cycle analyzer (`analytics.py:analyze_serial`, lines 455-538)

Times are handled exactly: an event's epoch time `timeMs` is an integer (as
produced by the barcode parser), float gaps `(Δms)/1000` are compared
against thresholds by the equivalent integer comparisons on `Δms`, Python
`int(float)` truncation toward zero is `Int.tdiv`, and the floating
`units/duration*3600` throughput is computed in `ℚ` (exact where the float
would round, which no claim depends on).  The station banner and the
aggregate `stats` block of the result are omitted: no claim mentions them. -/

/-- One barcode event as `analyze_serial` consumes it
(`e.get('sn')`, `e.get('category')`, `e.get('timeMs', 0)`, `e.get('timeStr', '')`). -/
structure BarcodeEvent where
  sn : Value := none
  category : String := ""
  timeMs : Int := 0
  timeStr : String := ""
deriving Repr, DecidableEq

/-- One entry of the `units` list (its `gap` field stores `int(gap)`;
`isStoppage`/`isBuffer` are decided on the un-truncated float gap). -/
structure SUnit where
  n : Nat
  time : String
  timeMs : Int
  sn : Value
  gap : Int
  isStoppage : Bool
  isBuffer : Bool
deriving Repr, DecidableEq

instance : Inhabited SUnit := ⟨⟨0, "", 0, none, 0, false, false⟩⟩

/-- The unit-building loop: first sighting per serial, gap to the previous
kept unit in ms (0 for the first unit). -/
def buildUnitsAux : List BarcodeEvent → List Value → List SUnit → List SUnit
  | [], _, acc => acc
  | e :: rest, seen, acc =>
    if seen.contains e.sn then buildUnitsAux rest seen acc
    else
      let gapMs : Int :=
        match acc.getLast? with
        | some u => e.timeMs - u.timeMs
        | none => 0
      buildUnitsAux rest (seen ++ [e.sn])
        (acc ++ [{ n := acc.length + 1, time := e.timeStr, timeMs := e.timeMs, sn := e.sn,
                   gap := Int.tdiv gapMs 1000,
                   isStoppage := decide (gapMs > 60000),
                   isBuffer := decide (gapMs < 30000 ∧ gapMs > 0) }])

/-- One production run of the result (`runs` list entries). -/
structure ProdRun where
  runNumber : Nat
  startTime : String
  endTime : String
  numUnits : Nat
  durationSec : Int
  uph : ℚ
  stoppageTime : Option Int
deriving Repr, DecidableEq

/-- Build one run record from its unit slice and the boundary unit. -/
def mkProdRun (rn : Nat) (run_units : List SUnit) (boundary : SUnit) : ProdRun :=
  let firstU := run_units.headD default
  let lastU := run_units.getLastD default
  let durationMs : Int := lastU.timeMs - firstU.timeMs
  let duration : ℚ := (durationMs : ℚ) / 1000
  { runNumber := rn, startTime := firstU.time, endTime := lastU.time,
    numUnits := run_units.length,
    durationSec := Int.tdiv durationMs 1000,
    uph := if duration > 0 then (run_units.length : ℚ) / duration * 3600 else 0,
    stoppageTime := if boundary.isStoppage then some boundary.gap else none }

/-- State of the run-segmentation loop. -/
structure RunState where
  run_start : Nat
  run_number : Nat
  runs : List ProdRun
deriving Repr, DecidableEq

/-- One iteration of the run-segmentation loop over unit index `i`: at a
stoppage boundary or at the last index, close the current segment
(`units[run_start:i]` at a stoppage, `units[run_start:i+1]` at the plain
last index) when it is non-empty, and restart at `i`. -/
def runStep (units : List SUnit) (st : RunState) (i : Nat) : RunState :=
  let unit := units.getD i default
  if unit.isStoppage || (i = units.length - 1) then
    let st1 :=
      if i > st.run_start then
        let run_units :=
          if unit.isStoppage then (units.drop st.run_start).take (i - st.run_start)
          else (units.drop st.run_start).take (i + 1 - st.run_start)
        if run_units.length > 0 then
          { st with run_number := st.run_number + 1,
                    runs := st.runs ++ [mkProdRun (st.run_number + 1) run_units unit] }
        else { st with run_number := st.run_number + 1 }
      else st
    { st1 with run_start := i }
  else st

/-- The full run-segmentation loop. -/
def buildRuns (units : List SUnit) : List ProdRun :=
  ((List.range units.length).foldl (runStep units) ⟨0, 0, []⟩).runs

/-- The SN-scan filter: a truthy `sn` and category `Scan`. -/
def scanFilter (e : BarcodeEvent) : Bool := truthy e.sn && (e.category == "Scan")

/-- `analytics.py:analyze_serial` (units and runs of the result; `none` is
the `return None` of the source on fewer than two scan events or units). -/
def analyze_serial (events : List BarcodeEvent) : Option (List SUnit × List ProdRun) :=
  let sn_events := events.filter scanFilter
  if sn_events.length < 2 then none
  else
    let units := buildUnitsAux sn_events [] []
    if units.length < 2 then none
    else some (units, buildRuns units)

/-! ## Claim-side predicates and concrete fixtures -/

instance : Inhabited MmiEvent := ⟨{}⟩

instance : Inhabited Change := ⟨{}⟩

/-- "pairwise disjoint target record ids" for a change list: any two
positions holding an (approved, materializable) DELETE or effective UPDATE
name different targets. -/
def relevantChange (c : Change) : Bool := delMatches c || updMatches c

/-- The pairwise-disjointness relation used in the C1 hypotheses. -/
def disjTargets (c c' : Change) : Prop :=
  relevantChange c = true → relevantChange c' = true → c.sql_row_id ≠ c'.sql_row_id

instance (c c' : Change) : Decidable (disjTargets c c') := by
  unfold disjTargets
  infer_instance

/-- Modelled from the claim's words (C4): a run of ≥ 3 `SQL_INSERT` events
with byte-identical payloads in which each event is within 30s **of its
neighbor**. -/
def neighborRun (es : List MmiEvent) : Bool :=
  decide (es.length ≥ 3) && es.all (fun e => e.event_type == "SQL_INSERT") &&
  es.all (fun e => e.values == (es.headD default).values) &&
  (es.zip (es.drop 1)).all (fun p => _times_close p.1.timestamp p.2.timestamp 30)

/-- Fixture: an SQL_INSERT event with the given line number, timestamp and
VALUES payload. -/
def mkInsertEvent (ln : Nat) (t v : String) : MmiEvent :=
  { line_number := ln, timestamp := t, raw := "[" ++ t ++ "] insert " ++ v,
    content := " insert " ++ v, event_type := "SQL_INSERT", values := v }

/-- Fixture (C4 counterexample): three identical inserts whose neighbor gaps
are 20s but whose total span is 40s. -/
def ce4Events : List MmiEvent :=
  [mkInsertEvent 1 "10:00:00" "V", mkInsertEvent 2 "10:00:20" "V", mkInsertEvent 3 "10:00:40" "V"]

/-- Fixture (C4 witness): three identical inserts all within 30s of the first. -/
def w4Events : List MmiEvent :=
  [mkInsertEvent 1 "10:00:00" "V", mkInsertEvent 2 "10:00:10" "V", mkInsertEvent 3 "10:00:20" "V"]

/-- Fixture (C7): first of two adjacent duplicate rows. -/
def w7Row1 : Row :=
  [("ID", some "1"), ("DATE", some "2025-01-01 10:00:00"),
   ("POWER_BOARD_SN", some "PB001"), ("BATTERY_SN", some "BT001"),
   ("PSA_TAPE_PIC", some "TAPE_0001")]

/-- Fixture (C7): second of two adjacent duplicate rows. -/
def w7Row2 : Row :=
  [("ID", some "2"), ("DATE", some "2025-01-01 10:00:00"),
   ("POWER_BOARD_SN", some "PB001"), ("BATTERY_SN", some "BT001"),
   ("PSA_TAPE_PIC", some "TAPE_0001")]

/-- Fixture (C6): a row whose SN image and PSA image carry different
filename prefixes (`SN_0005` vs `PSA_0020`), exposing which prefix the
suggested value keeps. -/
def ce6Row : Row :=
  [("ID", some "7"), ("DATE", some "2025-01-01 10:00:00"),
   ("POWER_BOARD_SN_PIC", some "SN_0005"), ("POWER_BOARD_PSA_PIC", some "PSA_0020")]

/-- Fixture (C8): a single pending change. -/
def w8Change : Change := { id := "missing_psa_1", status := "pending" }

/-- Fixture (C2): a lone-CR log whose two (parser-numbered) lines are both
bracket-timestamped. -/
def ce2Raw : String := "[10:00:00]A\r[10:00:05]A"

/-- Fixture (C2): an approved DUPLICATE_INSERT change whose evidence points
at parser lines 1 and 2. -/
def ce2Change : Change :=
  { id := "duplicate_2", issue_type := "DUPLICATE_INSERT", status := "approved",
    action := "DELETE", mmi_line_numbers := [1, 2] }

/-- Fixture (C5): scan events at t = 0s, 20s and 95s with three distinct
serials (the spec's scenario). -/
def c5Scenario : List BarcodeEvent :=
  [{ sn := some "A", category := "Scan", timeMs := 0, timeStr := "00:00:00" },
   { sn := some "B", category := "Scan", timeMs := 20000, timeStr := "00:00:20" },
   { sn := some "C", category := "Scan", timeMs := 95000, timeStr := "00:01:35" }]

/-- Fixture (C5): two simultaneous scans then a stoppage — produces a
zero-duration run. -/
def c5ZeroDuration : List BarcodeEvent :=
  [{ sn := some "A", category := "Scan", timeMs := 0, timeStr := "00:00:00" },
   { sn := some "B", category := "Scan", timeMs := 0, timeStr := "00:00:00" },
   { sn := some "C", category := "Scan", timeMs := 95000, timeStr := "00:01:35" }]

/-- Fixture (C1 witness): row 1. -/
def w1Row1 : Row := [("ID", some "1"), ("A", some "x"), ("B", some "y")]

/-- Fixture (C1 witness): row 2. -/
def w1Row2 : Row := [("ID", some "2"), ("A", some "q"), ("B", some "w")]

/-- Fixture (C1 witness): an approved DELETE of row 2. -/
def w1Delete : Change :=
  { id := "duplicate_2", issue_type := "DUPLICATE_INSERT", status := "approved",
    action := "DELETE", sql_row_id := some "2", sql_before := some w1Row2 }

/-- Fixture (C1 witness): an approved UPDATE of row 1 changing only field `A`. -/
def w1Update : Change :=
  { id := "cam2_pb_mismatch_1", issue_type := "INDEX_MISMATCH", status := "approved",
    action := "UPDATE", sql_row_id := some "1", sql_before := some w1Row1,
    sql_after := some [("ID", some "1"), ("A", some "z"), ("B", some "y")] }

/-! # Theorems -/

/-! ## Shared helper lemmas -/

/-- Every failure path of the component parse makes `_normalize_time`
return the sentinel `0`. -/
theorem normalize_time_of_fail (t : String) (h : normalizeHMS? t = none) :
    _normalize_time t = 0 := by
  unfold _normalize_time
  rw [h]

/-! ## C3 — the normalizer signals `ParseFailure` on non-grammar input -/

/-- C3, counterexample.  The claim says a string matching neither the
12-hour nor the 24-hour grammar makes the normalizer "signal ParseFailure
rather than returning a seconds-since-midnight integer".  `"garbage"`
matches neither grammar, yet `_normalize_time` returns the integer `0` —
the very value it returns for the valid string `"12:00:00 AM"` — and no
failure is signalled anywhere (the function is total). -/
theorem C3_counterexample :
    matches12h "garbage" = false ∧ matches24h "garbage" = false ∧
    _normalize_time "garbage" = 0 ∧ _normalize_time "12:00:00 AM" = 0 := by
  refine ⟨by decide, by decide, by decide, by decide⟩

/-- C3, amended: the timestamp normalizer never signals `ParseFailure`: it
is total, and on every input whose colon/period-separated component parse
fails (in particular on arbitrary non-time text, which matches neither
grammar) it returns the integer `0`, conflating unparseable input with
midnight. -/
theorem C3_normalizer_returns_zero (t : String) (h : normalizeHMS? t = none) :
    _normalize_time t = 0 :=
  normalize_time_of_fail t h

/-- C3, witness for the amended theorem at the concrete input `"garbage"`. -/
theorem C3_normalizer_returns_zero_witness :
    normalizeHMS? "garbage" = none ∧ _normalize_time "garbage" = 0 :=
  ⟨by decide, C3_normalizer_returns_zero "garbage" (by decide)⟩

/-! ## C9 — unparseable timestamps fuzzy-match everything near midnight -/

/-- C9: if neither string parses as a time (its component parse fails, as
for the empty string or arbitrary non-time text), `_times_close` is true
for every window ≥ 0, because `_normalize_time` maps every such string to
`0`; and a string that fails to parse fuzzy-matches every string whose
normalized time is within the window of midnight (`0` seconds). -/
theorem C9_unparseable_times_close (t1 t2 : String) (w : Int)
    (h1 : normalizeHMS? t1 = none) (hw : 0 ≤ w) :
    (normalizeHMS? t2 = none → _times_close t1 t2 w = true) ∧
    (|_normalize_time t2| ≤ w → _times_close t1 t2 w = true) := by
  constructor
  · intro h2
    unfold _times_close
    rw [normalize_time_of_fail t1 h1, normalize_time_of_fail t2 h2]
    simpa using hw
  · intro h2
    unfold _times_close
    rw [normalize_time_of_fail t1 h1]
    simpa using h2

/-- C9, witness: the empty string and `"garbage"` both fail to parse, so
they are `times_close` for window 5; and `"0:00:10"` normalizes within 30
of midnight, so it fuzzy-matches the unparseable empty string. -/
theorem C9_unparseable_times_close_witness :
    _times_close "" "garbage" 5 = true ∧ _times_close "" "0:00:10" 30 = true :=
  ⟨(C9_unparseable_times_close "" "garbage" 5 (by decide) (by decide)).1 (by decide),
   (C9_unparseable_times_close "" "0:00:10" 30 (by decide) (by decide)).2 (by decide)⟩

/-- Mapping `Prod.fst` over a zip gives the left list truncated to the
right list's length. -/
theorem zip_map_fst_eq_take {α β : Type} :
    ∀ (l1 : List α) (l2 : List β), (l1.zip l2).map Prod.fst = l1.take l2.length := by
  intro l1
  induction l1 with
  | nil => intro l2; simp
  | cons a t ih =>
    intro l2
    cases l2 with
    | nil => simp
    | cons b t2 => simp [ih]

/-- A zip only consumes the right list up to the left list's length. -/
theorem zip_take_right_eq {α β : Type} :
    ∀ (l1 : List α) (l2 : List β), l1.zip l2 = l1.zip (l2.take l1.length) := by
  intro l1
  induction l1 with
  | nil => intro l2; simp
  | cons a t ih =>
    intro l2
    cases l2 with
    | nil => simp
    | cons b t2 => simp [List.zip_cons_cons]; exact ih t2

/-! ## C10 — the VALUES tokenizer truncates/shortens silently -/

/-- C10: both copies of the quote-aware VALUES tokenizer return an
association list keyed by at most the 15 schema column names: the keys are
exactly the first `k` schema names where `k` is the number of comma-split
values (so `k < 15` values give exactly the first `k` columns), values
beyond the 15th are dropped (the result only depends on the first 15), the
split always yields at least one value, no error is ever signalled (the
functions are total), and the two copies agree on every input. -/
theorem C10_values_tokenizer (s : String) :
    (parse_insert_values s).map Prod.fst = VALUES_FIELDS.take (tokenizeValues s).length ∧
    (parse_insert_values s).length = min 15 (tokenizeValues s).length ∧
    parse_insert_values s = VALUES_FIELDS.zip ((tokenizeValues s).take 15) ∧
    1 ≤ (tokenizeValues s).length ∧
    parse_insert_values s = _parse_values_string s := by
  refine ⟨?_, ?_, ?_, ?_, rfl⟩
  · unfold parse_insert_values
    exact zip_map_fst_eq_take VALUES_FIELDS (tokenizeValues s)
  · unfold parse_insert_values
    rw [List.length_zip]
    rfl
  · unfold parse_insert_values
    exact zip_take_right_eq VALUES_FIELDS (tokenizeValues s)
  · unfold tokenizeValues
    simp

/-! ## C8 — ledger approve/reject: idempotence and NotFound -/

/-- Re-approving the change found by a successful approve finds it again
and leaves the list unchanged. -/
theorem approveFound_some_idem :
    ∀ (cs : List Change) (cid : String) (l : List Change),
      approveFound cs cid = some l → approveFound l cid = some l := by
  intro cs
  induction cs with
  | nil => intro cid l h; simp [approveFound] at h
  | cons c t ih =>
    intro cid l h
    by_cases hc : c.id = cid
    · simp only [approveFound, if_pos hc] at h
      rw [← Option.some_inj.mp h]
      simp [approveFound, hc]
    · simp only [approveFound, if_neg hc] at h
      obtain ⟨l', hl', rfl⟩ := Option.map_eq_some'.mp h
      simp only [approveFound, if_neg hc]
      rw [ih cid l' hl']
      rfl

/-- An id matching no change makes the approve scan come up empty. -/
theorem approveFound_none_of_absent :
    ∀ (cs : List Change) (cid : String), (∀ c ∈ cs, c.id ≠ cid) →
      approveFound cs cid = none := by
  intro cs
  induction cs with
  | nil => intro cid _; rfl
  | cons c t ih =>
    intro cid h
    simp only [approveFound, if_neg (h c (by simp))]
    rw [ih cid (fun x hx => h x (by simp [hx]))]
    rfl

/-- An id matching no change makes the reject scan come up empty. -/
theorem rejectFound_none_of_absent :
    ∀ (cs : List Change) (cid : String), (∀ c ∈ cs, c.id ≠ cid) →
      rejectFound cs cid = none := by
  intro cs
  induction cs with
  | nil => intro cid _; rfl
  | cons c t ih =>
    intro cid h
    simp only [rejectFound, if_neg (h c (by simp))]
    rw [ih cid (fun x hx => h x (by simp [hx]))]
    rfl

/-- C8: approving a change twice is a no-op — the ledger after the second
approve call is identical to the ledger after the first (this also covers
re-approving an already-approved change); and approving or rejecting an id
present on no proposal reports not-found (the 404 path) and leaves every
proposal — in particular every status — unchanged. -/
theorem C8_ledger_idempotent_notfound (changes : List Change) (cid : String) :
    (approveEndpoint (approveEndpoint changes cid).1 cid).1 = (approveEndpoint changes cid).1 ∧
    ((∀ c ∈ changes, c.id ≠ cid) →
      approveEndpoint changes cid = (changes, false) ∧
      rejectEndpoint changes cid = (changes, false)) := by
  constructor
  · cases happ : approveFound changes cid with
    | none => simp [approveEndpoint, happ]
    | some l => simp [approveEndpoint, happ, approveFound_some_idem changes cid l happ]
  · intro h
    constructor
    · simp [approveEndpoint, approveFound_none_of_absent changes cid h]
    · simp [rejectEndpoint, rejectFound_none_of_absent changes cid h]

/-- C8, witness: one pending change; approving it twice keeps the ledger at
the once-approved state, and approving/rejecting the unknown id `"nope"`
reports not-found with the ledger unchanged. -/
theorem C8_ledger_idempotent_notfound_witness :
    (approveEndpoint (approveEndpoint [w8Change] "missing_psa_1").1 "missing_psa_1").1
      = (approveEndpoint [w8Change] "missing_psa_1").1 ∧
    (approveEndpoint [w8Change] "nope" = ([w8Change], false) ∧
     rejectEndpoint [w8Change] "nope" = ([w8Change], false)) :=
  ⟨(C8_ledger_idempotent_notfound [w8Change] "missing_psa_1").1,
   (C8_ledger_idempotent_notfound [w8Change] "nope").2 (by decide)⟩

/-! ## C7 — adjacent duplicate rows -/

/-- Closed form of `find_duplicate_rows`: one proposal per matching
adjacent pair, in table order. -/
theorem find_duplicate_rows_eq (mmi : List MmiEvent) (rows : List Row) :
    find_duplicate_rows mmi rows
      = ((rows.zip (rows.drop 1)).filter (fun pc => dupPairCond pc.1 pc.2)).map
          (fun pc => mkDuplicateChange mmi pc.1 pc.2) := by
  unfold find_duplicate_rows
  induction rows.zip (rows.drop 1) with
  | nil => rfl
  | cons a t ih =>
    by_cases h : dupPairCond a.1 a.2
    · simp [List.filterMap_cons, List.filter_cons, h, ih]
    · simp [List.filterMap_cons, List.filter_cons, h, ih]

/-- C7: for every two adjacent records with identical `str(DATE)` and equal
`POWER_BOARD_SN`/`BATTERY_SN`/`PSA_TAPE_PIC`, the detector emits a
DUPLICATE_INSERT proposal with action DELETE targeting the second row's ID
and a null after-snapshot; and the number of proposals equals the number of
matching adjacent pairs, so each matching pair contributes exactly one. -/
theorem C7_duplicate_adjacent_rows (mmi : List MmiEvent) (rows : List Row) :
    (find_duplicate_rows mmi rows).length
      = ((rows.zip (rows.drop 1)).filter (fun pc => dupPairCond pc.1 pc.2)).length ∧
    ∀ pc ∈ rows.zip (rows.drop 1), dupPairCond pc.1 pc.2 = true →
      mkDuplicateChange mmi pc.1 pc.2 ∈ find_duplicate_rows mmi rows ∧
      (mkDuplicateChange mmi pc.1 pc.2).issue_type = "DUPLICATE_INSERT" ∧
      (mkDuplicateChange mmi pc.1 pc.2).action = "DELETE" ∧
      (mkDuplicateChange mmi pc.1 pc.2).sql_row_id = pyGet pc.2 "ID" ∧
      (mkDuplicateChange mmi pc.1 pc.2).sql_after = none := by
  constructor
  · rw [find_duplicate_rows_eq]
    exact List.length_map _ _
  · intro pc hmem hcond
    refine ⟨?_, rfl, rfl, rfl, rfl⟩
    rw [find_duplicate_rows_eq]
    exact List.mem_map_of_mem _ (List.mem_filter.mpr ⟨hmem, hcond⟩)

/-- C7, witness: the spec's scenario — two adjacent rows at the identical
timestamp with identical key fields produce exactly one DELETE proposal
targeting the second row. -/
theorem C7_duplicate_adjacent_rows_witness :
    dupPairCond w7Row1 w7Row2 = true ∧
    mkDuplicateChange [] w7Row1 w7Row2 ∈ find_duplicate_rows [] [w7Row1, w7Row2] ∧
    (mkDuplicateChange [] w7Row1 w7Row2).sql_row_id = some "2" :=
  ⟨by decide,
   ((C7_duplicate_adjacent_rows [] [w7Row1, w7Row2]).2 (w7Row1, w7Row2) (by decide)
      (by decide)).1,
   by decide⟩

/-! ## C2 — MMI materialization vs. line separators -/

/-- On CR-free input the newline-normalizing scanner is the identity. -/
theorem normalizeNewlinesAux_of_noCR :
    ∀ (l : List Char), (∀ c ∈ l, c ≠ '\r') → normalizeNewlinesAux false l = l := by
  intro l
  induction l with
  | nil => intro _; rfl
  | cons b rest ih =>
    intro h
    have hb : b ≠ '\r' := h b (by simp)
    simp [normalizeNewlinesAux, hb, ih (fun c hc => h c (List.mem_cons_of_mem _ hc))]

/-- C2, counterexample.  A lone-CR log: the parser numbers its two
bracket-timestamped lines 1 and 2, an approved DUPLICATE_INSERT proposal
cites lines [1, 2], yet the export — which splits the raw text on LF only —
removes nothing, while the claimed behaviour (removal in the parser's
normalized numbering, other lines preserved byte-for-byte) yields just the
first line. -/
theorem C2_counterexample :
    (parse_mmi_lines ce2Raw).map (fun p => p.line_number) = [1, 2] ∧
    export_mmi ce2Raw [ce2Change] = ce2Raw ∧
    export_mmi_specModel ce2Raw [ce2Change] = "[10:00:00]A" ∧
    export_mmi ce2Raw [ce2Change] ≠ export_mmi_specModel ce2Raw [ce2Change] := by
  refine ⟨by decide, by decide, by decide, by decide⟩

/-- C2, amended: for logs containing no CR (LF line separators — the export
splits on LF only), materializing the cleaned log removes exactly the lines
whose 1-based numbers appear beyond the first position in the evidence
line-number list of some approved DUPLICATE_INSERT proposal and preserves
every non-removed line byte-for-byte in original order (the spec-modelled
`export_mmi_specModel`); for lone-CR logs the export treats the whole text
as a single line and removes nothing, as the counterexample shows. -/
theorem C2_export_mmi_lf (raw : String) (changes : List Change)
    (h : ∀ c ∈ raw.data, c ≠ '\r') :
    export_mmi raw changes = export_mmi_specModel raw changes := by
  unfold export_mmi export_mmi_specModel
  rw [show normalizeNewlines raw.data = raw.data from normalizeNewlinesAux_of_noCR raw.data h]

/-- C2, witness for the amended theorem: an LF-separated three-line log
with the same approved proposal. -/
theorem C2_export_mmi_lf_witness :
    export_mmi "[10:00:00]A\n[10:00:05]A\n[10:00:09]B" [ce2Change]
      = export_mmi_specModel "[10:00:00]A\n[10:00:05]A\n[10:00:09]B" [ce2Change] ∧
    export_mmi "[10:00:00]A\n[10:00:05]A\n[10:00:09]B" [ce2Change]
      = "[10:00:00]A\n[10:00:09]B" :=
  ⟨C2_export_mmi_lf "[10:00:00]A\n[10:00:05]A\n[10:00:09]B" [ce2Change] (by decide),
   by decide⟩

/-! ## C6 — camera-2 index mismatch: which filename is rewritten -/

/-- Setting a key that occurs in the row makes the first lookup return the
new value. -/
theorem lookupKV_map_set (k : String) (v : Value) :
    ∀ (t : Row), t.any (fun kv => kv.1 = k) = true →
      lookupKV (t.map (fun kv => if kv.1 = k then (k, v) else kv)) k = some v := by
  intro t
  induction t with
  | nil => intro h; simp at h
  | cons kv rest ih =>
    intro h
    by_cases hk : kv.1 = k
    · simp [lookupKV, hk]
    · simp only [List.map_cons, if_neg hk, lookupKV]
      apply ih
      simpa [List.any_cons, hk] using h

/-- Appending a key absent from the row makes lookup find it last. -/
theorem lookupKV_append_self (k : String) (v : Value) :
    ∀ (t : Row), t.any (fun kv => kv.1 = k) = false →
      lookupKV (t ++ [(k, v)]) k = some v := by
  intro t
  induction t with
  | nil => intro _; simp [lookupKV]
  | cons kv rest ih =>
    intro h
    simp only [List.any_cons, Bool.or_eq_false_iff] at h
    have hk : ¬ kv.1 = k := by simpa using h.1
    simp only [List.cons_append, lookupKV, if_neg hk]
    exact ih h.2

/-- Dict assignment then lookup of the same key gives the assigned value. -/
theorem lookupKV_dictSet_self (r : Row) (k : String) (v : Value) :
    lookupKV (dictSet r k v) k = some v := by
  unfold dictSet
  by_cases h : r.any (fun kv => kv.1 = k)
  · rw [if_pos h]
    exact lookupKV_map_set k v r h
  · rw [if_neg h]
    exact lookupKV_append_self k v r (Bool.eq_false_iff.mpr h)

/-- C6, counterexample.  On a row whose SN image is `SN_0005` and whose PSA
image is `PSA_0020`, the detector's suggested value is `SN_0011` — the
**SN** filename's prefix with the corrected index — not the claim's
`PSA_0011` (the PSA filename's trailing index rewritten with its prefix
preserved). -/
theorem C6_counterexample :
    (find_cam2_index_mismatches [] [ce6Row]).map
        (fun c => pyGet (c.sql_after.getD []) "POWER_BOARD_PSA_PIC")
      = [some "SN_0011"] ∧
    rewriteTrailingIndex "PSA_0020" 11 = "PSA_0011" ∧
    (some "SN_0011" : Value) ≠ (some "PSA_0011" : Value) := by
  refine ⟨by decide, by decide, by decide⟩

/-- C6, amended: for every record in which both the power-board
(respectively battery) SN-image and PSA-image filenames carry a trailing
numeric index and the PSA index minus the SN index differs from 6, the
detector emits an UPDATE proposal with `expected_index = sn_index + 6`
whose suggested value rewrites the trailing index of the **SN-image**
filename (preserving the SN filename's prefix, not the PSA filename's) to
the expected index; an SN pic ending `_0005` still yields
`expected_index = 11` and a suggested filename ending `_0011`. -/
theorem C6_cam2_rewrites_sn_filename (mmi : List MmiEvent) (rows : List Row) (row : Row)
    (a b : Nat) (hmem : row ∈ rows) :
    (_extract_image_index (pyGet row "POWER_BOARD_SN_PIC") = some a →
     _extract_image_index (pyGet row "POWER_BOARD_PSA_PIC") = some b →
     (b : Int) - (a : Int) ≠ 6 →
     mkCam2Change mmi row "pb" "POWER_BOARD_SN_PIC" "POWER_BOARD_PSA_PIC" a b
         ∈ find_cam2_index_mismatches mmi rows ∧
     (mkCam2Change mmi row "pb" "POWER_BOARD_SN_PIC" "POWER_BOARD_PSA_PIC" a b).issue_type
         = "INDEX_MISMATCH" ∧
     (mkCam2Change mmi row "pb" "POWER_BOARD_SN_PIC" "POWER_BOARD_PSA_PIC" a b).action
         = "UPDATE" ∧
     (mkCam2Change mmi row "pb" "POWER_BOARD_SN_PIC" "POWER_BOARD_PSA_PIC" a b).sql_row_id
         = pyGet row "ID" ∧
     (mkCam2Change mmi row "pb" "POWER_BOARD_SN_PIC" "POWER_BOARD_PSA_PIC" a b).expected_index
         = some (a + 6) ∧
     pyGet ((mkCam2Change mmi row "pb" "POWER_BOARD_SN_PIC" "POWER_BOARD_PSA_PIC" a b).sql_after.getD [])
         "POWER_BOARD_PSA_PIC"
       = some (rewriteTrailingIndex (pyStrGetD row "POWER_BOARD_SN_PIC") (a + 6))) ∧
    (_extract_image_index (pyGet row "BATTERY_SN_PIC") = some a →
     _extract_image_index (pyGet row "BATTERY_PSA_PIC") = some b →
     (b : Int) - (a : Int) ≠ 6 →
     mkCam2Change mmi row "bt" "BATTERY_SN_PIC" "BATTERY_PSA_PIC" a b
         ∈ find_cam2_index_mismatches mmi rows ∧
     (mkCam2Change mmi row "bt" "BATTERY_SN_PIC" "BATTERY_PSA_PIC" a b).expected_index
         = some (a + 6) ∧
     pyGet ((mkCam2Change mmi row "bt" "BATTERY_SN_PIC" "BATTERY_PSA_PIC" a b).sql_after.getD [])
         "BATTERY_PSA_PIC"
       = some (rewriteTrailingIndex (pyStrGetD row "BATTERY_SN_PIC") (a + 6))) := by
  constructor
  · intro hsn hpsa hgap
    refine ⟨List.mem_flatMap.mpr ⟨row, hmem, List.mem_append_left _ ?_⟩,
            rfl, rfl, rfl, rfl, ?_⟩
    · simp only [cam2SideChanges, hsn, hpsa]
      rw [if_pos hgap]
      exact List.mem_singleton.mpr rfl
    · show pyGet (_clean_row (dictSet row "POWER_BOARD_PSA_PIC" _)) _ = _
      unfold _clean_row pyGet
      rw [lookupKV_dictSet_self]
  · intro hsn hpsa hgap
    refine ⟨List.mem_flatMap.mpr ⟨row, hmem, List.mem_append_right _ ?_⟩,
            rfl, ?_⟩
    · simp only [cam2SideChanges, hsn, hpsa]
      rw [if_pos hgap]
      exact List.mem_singleton.mpr rfl
    · show pyGet (_clean_row (dictSet row "BATTERY_PSA_PIC" _)) _ = _
      unfold _clean_row pyGet
      rw [lookupKV_dictSet_self]

/-- C6, witness: the fixture row (`SN_0005` / `PSA_0020`, indices 5 and 20,
gap 15 ≠ 6) yields the power-board proposal with expected index 11 and the
SN-filename-based suggestion ending `_0011`. -/
theorem C6_cam2_rewrites_sn_filename_witness :
    mkCam2Change [] ce6Row "pb" "POWER_BOARD_SN_PIC" "POWER_BOARD_PSA_PIC" 5 20
        ∈ find_cam2_index_mismatches [] [ce6Row] ∧
    (mkCam2Change [] ce6Row "pb" "POWER_BOARD_SN_PIC" "POWER_BOARD_PSA_PIC" 5 20).expected_index
        = some (5 + 6) ∧
    pyGet ((mkCam2Change [] ce6Row "pb" "POWER_BOARD_SN_PIC" "POWER_BOARD_PSA_PIC" 5 20).sql_after.getD [])
        "POWER_BOARD_PSA_PIC"
      = some (rewriteTrailingIndex (pyStrGetD ce6Row "POWER_BOARD_SN_PIC") (5 + 6)) := by
  have h := (C6_cam2_rewrites_sn_filename [] [ce6Row] ce6Row 5 20 (by decide)).1
    (by decide) (by decide) (by decide)
  exact ⟨h.1, h.2.2.2.2.1, h.2.2.2.2.2⟩

/-! ## C4 — repeated inserts: the 30s window is anchored at the run head -/

/-- `takeWhile` of a predicate true on every element is the whole list. -/
theorem takeWhile_of_all {α : Type} (p : α → Bool) :
    ∀ (l : List α), (∀ x ∈ l, p x = true) → l.takeWhile p = l := by
  intro l
  induction l with
  | nil => intro _; rfl
  | cons a t ih =>
    intro h
    simp [List.takeWhile_cons, h a (by simp), ih (fun x hx => h x (by simp [hx]))]

/-- `dropWhile` of a predicate true on every element is empty. -/
theorem dropWhile_of_all {α : Type} (p : α → Bool) :
    ∀ (l : List α), (∀ x ∈ l, p x = true) → l.dropWhile p = [] := by
  intro l
  induction l with
  | nil => intro _; rfl
  | cons a t ih =>
    intro h
    simp [List.dropWhile_cons, h a (by simp), ih (fun x hx => h x (by simp [hx]))]

/-- C4, counterexample.  Three SQL_INSERT events with byte-identical
payloads at 10:00:00, 10:00:20 and 10:00:40: each starts within 30s of its
neighbor (`neighborRun` holds, the claim's run condition with N = 3, so the
claim predicts proposals for occurrences 2 and 3), yet the detector emits
nothing — its inner loop compares every candidate against the **first**
event of the run (10:00:40 is 40s from 10:00:00), so the group stops at two
members and never reaches the ≥ 3 threshold. -/
theorem C4_counterexample :
    neighborRun ce4Events = true ∧
    (∀ e ∈ ce4Events, e.event_type = "SQL_INSERT") ∧
    find_repeated_inserts ce4Events [] = [] := by
  refine ⟨by decide, by decide, by decide⟩

/-- C4, amended: a run is grown while the candidate's payload equals the
**first** event's payload and the candidate starts within 30 seconds **of
the run's first event** (`repeatMatch`), not of its neighbor.  For every
such maximal run of ≥ 3 consecutive SQL_INSERT events the detector emits
one proposal per occurrence `2..N`, whose action is DELETE when a matching
record is found (`affected_rows[k]` exists among the rows whose `DATE` time
is within 60s of the run-head timestamp) and FLAG otherwise. -/
theorem C4_repeated_inserts_head_anchored (first : MmiEvent) (g : List MmiEvent)
    (rows : List Row)
    (hfirst : first.event_type = "SQL_INSERT")
    (hall : ∀ e ∈ g, e.event_type = "SQL_INSERT")
    (hmatch : ∀ e ∈ g, repeatMatch first e = true)
    (hlen : 2 ≤ g.length) :
    find_repeated_inserts (first :: g) rows = emitRepeats (first :: g) rows ∧
    (find_repeated_inserts (first :: g) rows).length = g.length ∧
    ∀ (i : Nat) (h : i < (find_repeated_inserts (first :: g) rows).length),
      ((find_repeated_inserts (first :: g) rows).get ⟨i, h⟩).issue_type = "REPEATED_INSERT" ∧
      ((find_repeated_inserts (first :: g) rows).get ⟨i, h⟩).occurrence = some (i + 2) ∧
      ((find_repeated_inserts (first :: g) rows).get ⟨i, h⟩).action
        = (if ((rows.filter (fun row =>
              _times_close (_extract_time (pyGet row "DATE")) first.timestamp 60))[i+1]?).isSome
           then "DELETE" else "FLAG") := by
  have hfilter : (first :: g).filter (fun e => e.event_type == "SQL_INSERT") = first :: g := by
    apply List.filter_eq_self.mpr
    intro a ha
    rcases List.mem_cons.mp ha with h | h
    · simp [h, hfirst]
    · simp [hall a h]
  have htake : g.takeWhile (repeatMatch first) = g := takeWhile_of_all _ g hmatch
  have hdrop : g.dropWhile (repeatMatch first) = [] := dropWhile_of_all _ g hmatch
  have hloop : repeatLoop rows (g.length + 1) (first :: g) = emitRepeats (first :: g) rows := by
    simp only [repeatLoop, htake, hdrop]
    rw [if_pos (by simp; omega)]
    cases hg : g.length with
    | zero => omega
    | succ n => simp [repeatLoop]
  have hmain : find_repeated_inserts (first :: g) rows = emitRepeats (first :: g) rows := by
    unfold find_repeated_inserts
    simp only [hfilter, List.length_cons]
    rw [if_neg (by omega)]
    exact hloop
  have hlen2 : (emitRepeats (first :: g) rows).length = g.length := by
    simp [emitRepeats]
  refine ⟨hmain, by rw [hmain, hlen2], ?_⟩
  intro i h
  have h2 : i < g.length := by rw [hmain, hlen2] at h; exact h
  simp only [hmain, emitRepeats, List.get_eq_getElem, List.getElem_map, List.getElem_enum]
  refine ⟨trivial, trivial, trivial⟩

/-- C4, witness: three identical inserts at 10:00:00, 10:00:10, 10:00:20
(all within 30s of the head) with no table rows produce exactly two
proposals, for occurrences 2 and 3. -/
theorem C4_repeated_inserts_head_anchored_witness :
    find_repeated_inserts w4Events [] = emitRepeats w4Events [] ∧
    (find_repeated_inserts w4Events []).length = 2 := by
  have h := C4_repeated_inserts_head_anchored (mkInsertEvent 1 "10:00:00" "V")
    [mkInsertEvent 2 "10:00:10" "V", mkInsertEvent 3 "10:00:20" "V"] []
    (by decide) (by decide) (by decide) (by decide)
  exact ⟨h.1, h.2.1⟩

/-! ## C5 — serial analyzer: stoppages, run segmentation, throughput -/

/-- C5, counterexample.  For scans at t = 0s, 20s, 95s the analyzer does
mark unit 3 as a stoppage boundary (gap 75 > 60), but it segments the units
into exactly ONE production run (of size 2), not two runs of sizes 2 and 1:
at the final index the loop closes `units[run_start:i]`, which excludes the
boundary unit itself, and then ends — a trailing run consisting only of the
last unit is never emitted. -/
theorem C5_counterexample :
    (analyze_serial c5Scenario).map (fun p => p.1.map (fun u => u.isStoppage))
      = some [false, false, true] ∧
    (analyze_serial c5Scenario).map (fun p => p.2.length) = some 1 ∧
    (analyze_serial c5Scenario).map (fun p => p.2.map (fun r => r.numUnits)) = some [2] ∧
    (analyze_serial c5Scenario).map (fun p => p.2.map (fun r => r.numUnits)) ≠ some [2, 1] := by
  refine ⟨by decide, by decide, by decide, by decide⟩

/-- C5, amended: for the scan stream at t = 0s, 20s, 95s the analyzer marks
unit 3 as a stoppage boundary (gap 75 > 60, with unit 2 a buffer-clear at
gap 20) and segments the units into exactly ONE production run, of size 2,
duration 20s and throughput `2/20*3600 = 360` — the trailing unit after the
last stoppage boundary forms no run of its own; runs split at gaps
exceeding 60 seconds, and a zero-duration run (two scans at the same
millisecond) reports throughput 0 rather than a division error. -/
theorem C5_serial_trailing_run_dropped :
    (analyze_serial c5Scenario).map (fun p => p.1.map (fun u => (u.gap, u.isStoppage, u.isBuffer)))
      = some [(0, false, false), (20, false, true), (75, true, false)] ∧
    (analyze_serial c5Scenario).map (fun p => p.2.map (fun r => (r.runNumber, r.numUnits, r.durationSec)))
      = some [(1, 2, 20)] ∧
    (analyze_serial c5Scenario).map (fun p => p.2.map (fun r => r.uph)) = some [360] ∧
    (analyze_serial c5ZeroDuration).map (fun p => p.2.map (fun r => (r.numUnits, r.durationSec)))
      = some [(2, 0)] ∧
    (analyze_serial c5ZeroDuration).map (fun p => p.2.map (fun r => r.uph)) = some [0] := by
  refine ⟨by decide, by decide, ?_, by decide, ?_⟩
  · have hu : buildUnitsAux (c5Scenario.filter scanFilter) [] []
        = [⟨1, "00:00:00", 0, some "A", 0, false, false⟩,
           ⟨2, "00:00:20", 20000, some "B", 20, false, true⟩,
           ⟨3, "00:01:35", 95000, some "C", 75, true, false⟩] := by decide
    have key : (analyze_serial c5Scenario).map (fun p => p.2.map (fun r => r.uph))
        = some [(mkProdRun 1 ((buildUnitsAux (c5Scenario.filter scanFilter) [] []).take 2)
            ((buildUnitsAux (c5Scenario.filter scanFilter) [] []).getD 2 default)).uph] := rfl
    rw [key, hu]
    show some [(mkProdRun 1 [⟨1, "00:00:00", 0, some "A", 0, false, false⟩,
        ⟨2, "00:00:20", 20000, some "B", 20, false, true⟩]
        ⟨3, "00:01:35", 95000, some "C", 75, true, false⟩).uph] = some [360]
    have h360 : (mkProdRun 1 [⟨1, "00:00:00", 0, some "A", 0, false, false⟩,
        ⟨2, "00:00:20", 20000, some "B", 20, false, true⟩]
        ⟨3, "00:01:35", 95000, some "C", 75, true, false⟩).uph = 360 := by
      simp only [mkProdRun]
      norm_num
    rw [h360]
  · have hu : buildUnitsAux (c5ZeroDuration.filter scanFilter) [] []
        = [⟨1, "00:00:00", 0, some "A", 0, false, false⟩,
           ⟨2, "00:00:00", 0, some "B", 0, false, false⟩,
           ⟨3, "00:01:35", 95000, some "C", 95, true, false⟩] := by decide
    have key : (analyze_serial c5ZeroDuration).map (fun p => p.2.map (fun r => r.uph))
        = some [(mkProdRun 1 ((buildUnitsAux (c5ZeroDuration.filter scanFilter) [] []).take 2)
            ((buildUnitsAux (c5ZeroDuration.filter scanFilter) [] []).getD 2 default)).uph] := rfl
    rw [key, hu]
    show some [(mkProdRun 1 [⟨1, "00:00:00", 0, some "A", 0, false, false⟩,
        ⟨2, "00:00:00", 0, some "B", 0, false, false⟩]
        ⟨3, "00:01:35", 95000, some "C", 95, true, false⟩).uph] = some [0]
    have h0 : (mkProdRun 1 [⟨1, "00:00:00", 0, some "A", 0, false, false⟩,
        ⟨2, "00:00:00", 0, some "B", 0, false, false⟩]
        ⟨3, "00:01:35", 95000, some "C", 95, true, false⟩).uph = 0 := by
      simp only [mkProdRun]
      norm_num
    rw [h0]

/-! ## C1 — SQL materialization: helper lemmas -/

/-- A lookup after `applyFieldUpdates` sees the update's value on keys the
update maps, and the original value elsewhere; absent keys stay absent. -/
theorem lookupKV_applyFieldUpdates (u : Row) (k : String) :
    ∀ (r : Row),
      lookupKV (applyFieldUpdates u r) k
        = (lookupKV r k).map (fun v => match lookupKV u k with | some w => w | none => v) := by
  intro r
  induction r with
  | nil => simp [applyFieldUpdates, lookupKV]
  | cons kv t ih =>
    by_cases hk : kv.1 = k
    · subst hk
      cases hu : lookupKV u kv.1 with
      | none => simp [applyFieldUpdates, lookupKV, hu]
      | some w => simp [applyFieldUpdates, lookupKV, hu]
    · have hhead : (match lookupKV u kv.1 with
          | some v => (kv.1, v)
          | none => kv).1 = kv.1 := by
        cases lookupKV u kv.1 <;> rfl
      simp only [applyFieldUpdates, List.map_cons] at ih ⊢
      simp only [lookupKV, hhead, if_neg hk]
      exact ih

/-- Keys the update does not mention keep their original value. -/
theorem pyGet_applyFieldUpdates_absent (u r : Row) (k : String)
    (h : lookupKV u k = none) :
    pyGet (applyFieldUpdates u r) k = pyGet r k := by
  unfold pyGet
  rw [lookupKV_applyFieldUpdates, h]
  cases lookupKV r k <;> rfl

/-- Lookup misses keys outside the key list. -/
theorem lookupKV_eq_none_of_not_mem (k : String) :
    ∀ (l : Row), k ∉ l.map Prod.fst → lookupKV l k = none := by
  intro l
  induction l with
  | nil => intro _; rfl
  | cons kv t ih =>
    intro h
    have hk : ¬ kv.1 = k := fun he => h (by simp [he])
    simp only [lookupKV, if_neg hk]
    exact ih (fun hm => h (by simp [hm]))

/-- `dictSet` introduces no key other than the assigned one. -/
theorem mem_keys_dictSet (d : Row) (k : String) (v : Value) (x : String)
    (h : x ∈ (dictSet d k v).map Prod.fst) :
    x ∈ d.map Prod.fst ∨ x = k := by
  unfold dictSet at h
  by_cases hany : d.any (fun kv => kv.1 = k)
  · rw [if_pos hany] at h
    rw [List.map_map] at h
    rcases List.mem_map.mp h with ⟨kv, hkv, hx⟩
    by_cases he : kv.1 = k
    · right
      simp [Function.comp, he] at hx
      exact hx.symm
    · left
      simp [Function.comp, he] at hx
      exact hx ▸ List.mem_map_of_mem Prod.fst hkv
  · rw [if_neg hany] at h
    rw [List.map_append] at h
    rcases List.mem_append.mp h with h | h
    · exact Or.inl h
    · right
      simpa using h

/-- `dictMerge` introduces no key outside its two arguments. -/
theorem mem_keys_dictMerge (x : String) :
    ∀ (upd d : Row), x ∈ (dictMerge d upd).map Prod.fst →
      x ∈ d.map Prod.fst ∨ x ∈ upd.map Prod.fst := by
  intro upd
  induction upd with
  | nil => intro d h; exact Or.inl h
  | cons kv rest ih =>
    intro d h
    have hstep : dictMerge d (kv :: rest) = dictMerge (dictSet d kv.1 kv.2) rest := rfl
    rw [hstep] at h
    rcases ih (dictSet d kv.1 kv.2) h with h1 | h1
    · rcases mem_keys_dictSet d kv.1 kv.2 x h1 with h2 | h2
      · exact Or.inl h2
      · exact Or.inr (by simp [h2])
    · exact Or.inr (by simp [h1])

/-- Any key of the collected updates comes from the changed fields of some
matching UPDATE change. -/
theorem mem_keys_updatesForAux (rid : Value) (x : String) :
    ∀ (changes : List Change) (acc : Row),
      x ∈ (updatesForAux rid acc changes).map Prod.fst →
      x ∈ acc.map Prod.fst ∨
        ∃ c ∈ changes, updMatches c = true ∧ x ∈ (diffOf c).map Prod.fst := by
  intro changes
  induction changes with
  | nil => intro acc h; exact Or.inl h
  | cons c rest ih =>
    intro acc h
    simp only [updatesForAux] at h
    by_cases hg : (updMatches c && (c.sql_row_id == rid)) = true
    · rw [if_pos hg] at h
      rcases ih _ h with h1 | h1
      · rcases mem_keys_dictMerge x (diffOf c) acc h1 with h2 | h2
        · exact Or.inl h2
        · exact Or.inr ⟨c, by simp, (Bool.and_eq_true _ _ |>.mp hg).1, h2⟩
      · rcases h1 with ⟨c', hc', hm', hx'⟩
        exact Or.inr ⟨c', by simp [hc'], hm', hx'⟩
    · rw [if_neg hg] at h
      rcases ih _ h with h1 | h1
      · exact Or.inl h1
      · rcases h1 with ⟨c', hc', hm', hx'⟩
        exact Or.inr ⟨c', by simp [hc'], hm', hx'⟩

/-- If no matching UPDATE change touches a key, the collected updates do
not contain it; in particular (`k = "ID"`) the collection never rewrites
the identity column when no changed-field set contains `"ID"`. -/
theorem lookupKV_updatesFor_none (changes : List Change) (rid : Value) (k : String)
    (h : ∀ c ∈ changes, updMatches c = true → k ∉ (diffOf c).map Prod.fst) :
    lookupKV (updatesFor changes rid) k = none := by
  apply lookupKV_eq_none_of_not_mem
  intro hmem
  rcases mem_keys_updatesForAux rid k changes [] hmem with h1 | ⟨c, hc, hm, hk⟩
  · simp at h1
  · exact h c hc hm hk

/-- When no change passes the UPDATE guard for `rid`, the collection loop
returns its accumulator unchanged. -/
theorem updatesForAux_skip (rid : Value) :
    ∀ (changes : List Change) (acc : Row),
      (∀ c ∈ changes, (updMatches c && (c.sql_row_id == rid)) = false) →
      updatesForAux rid acc changes = acc := by
  intro changes
  induction changes with
  | nil => intro acc _; rfl
  | cons c rest ih =>
    intro acc h
    simp only [updatesForAux, h c (by simp)]
    exact ih acc (fun x hx => h x (by simp [hx]))

/-- With no update applied, a row passes through unchanged. -/
theorem applyFieldUpdates_nil (r : Row) : applyFieldUpdates [] r = r := by
  unfold applyFieldUpdates
  have : ∀ kv : String × Value,
      (match lookupKV [] kv.1 with
       | some v => (kv.1, v)
       | none => kv) = kv := fun kv => rfl
  simp only [this]
  exact List.map_id r

/-- Folding dict assignments whose keys are fresh and mutually distinct is
a plain append. -/
theorem dictMerge_append_of_disjoint :
    ∀ (upd acc : Row), (upd.map Prod.fst).Nodup →
      (∀ k ∈ upd.map Prod.fst, k ∉ acc.map Prod.fst) →
      dictMerge acc upd = acc ++ upd := by
  intro upd
  induction upd with
  | nil => intro acc _ _; simp [dictMerge]
  | cons kv rest ih =>
    intro acc hnd hdisj
    have hknot : kv.1 ∉ acc.map Prod.fst := hdisj kv.1 (by simp)
    have hany : acc.any (fun x => x.1 = kv.1) = false := by
      rw [Bool.eq_false_iff]
      intro hany
      rcases List.any_eq_true.mp hany with ⟨x, hx, he⟩
      exact hknot (by simp at he; exact he ▸ List.mem_map_of_mem Prod.fst hx)
    have hset : dictSet acc kv.1 kv.2 = acc ++ [kv] := by
      unfold dictSet
      rw [if_neg (by simp [hany])]
    have hstep : dictMerge acc (kv :: rest) = dictMerge (dictSet acc kv.1 kv.2) rest := rfl
    have hnd2 : kv.1 ∉ rest.map Prod.fst ∧ (rest.map Prod.fst).Nodup := by
      rw [List.map_cons] at hnd
      exact List.nodup_cons.mp hnd
    rw [hstep, hset, ih (acc ++ [kv]) hnd2.2 ?_]
    · simp
    · intro k hk
      rw [List.map_append]
      intro hmem
      rcases List.mem_append.mp hmem with h1 | h1
      · exact hdisj k (by simp [hk]) h1
      · have : k = kv.1 := by simpa using h1
        exact hnd2.1 (this ▸ hk)

/-- Merging a uniquely-keyed field set into the empty accumulator is the
field set itself. -/
theorem dictMerge_nil (u : Row) (hnd : (u.map Prod.fst).Nodup) :
    dictMerge [] u = u := by
  have := dictMerge_append_of_disjoint u [] hnd (by simp)
  simpa using this

/-- The disjoint-targets relation is symmetric. -/
theorem disjTargets_symmetric : Symmetric disjTargets := by
  intro c c' h hr' hr
  exact (h hr hr').symm

/-- A materializable UPDATE is a relevant change. -/
theorem relevant_of_upd (c : Change) (h : updMatches c = true) :
    relevantChange c = true := by
  simp [relevantChange, h]

/-- An approved DELETE is a relevant change. -/
theorem relevant_of_del (c : Change) (h : delMatches c = true) :
    relevantChange c = true := by
  simp [relevantChange, h]

/-- A materializable UPDATE carries the UPDATE action. -/
theorem action_of_upd (c : Change) (h : updMatches c = true) : c.action = "UPDATE" := by
  unfold updMatches at h
  rcases Bool.and_eq_true _ _ |>.mp h with ⟨h1, _⟩
  rcases Bool.and_eq_true _ _ |>.mp h1 with ⟨_, h3⟩
  simpa using h3

/-- A collected DELETE carries the DELETE action. -/
theorem action_of_del (c : Change) (h : delMatches c = true) : c.action = "DELETE" := by
  unfold delMatches at h
  rcases Bool.and_eq_true _ _ |>.mp h with ⟨_, h2⟩
  simpa using h2

/-- Under pairwise-disjoint targets, the collected updates for the target
of a materializable UPDATE are exactly that change's changed fields (merged
into the empty dict). -/
theorem updatesFor_single (rid : Value) :
    ∀ (changes : List Change) (c : Change),
      changes.Pairwise disjTargets → c ∈ changes → updMatches c = true →
      c.sql_row_id = rid →
      updatesFor changes rid = dictMerge [] (diffOf c) := by
  intro changes
  induction changes with
  | nil => intro c _ hc; simp at hc
  | cons hd t ih =>
    intro c hpw hc hm hr
    have hpwc := List.pairwise_cons.mp hpw
    rcases List.mem_cons.mp hc with rfl | hct
    · have hguard : (updMatches c && (c.sql_row_id == rid)) = true := by
        simp [hm, hr]
      show updatesForAux rid [] (c :: t) = _
      simp only [updatesForAux, hguard, if_pos]
      apply updatesForAux_skip
      intro x hx
      rw [Bool.eq_false_iff]
      intro hgx
      rcases Bool.and_eq_true _ _ |>.mp hgx with ⟨hmx, hrx⟩
      have hx2 : x.sql_row_id = rid := by simpa using hrx
      exact (hpwc.1 x hx (relevant_of_upd c hm) (relevant_of_upd x hmx)) (hr.trans hx2.symm)
    · have hguardhd : (updMatches hd && (hd.sql_row_id == rid)) = false := by
        rw [Bool.eq_false_iff]
        intro hghd
        rcases Bool.and_eq_true _ _ |>.mp hghd with ⟨hmhd, hrhd⟩
        have hhd2 : hd.sql_row_id = rid := by simpa using hrhd
        exact (hpwc.1 c hct (relevant_of_upd hd hmhd) (relevant_of_upd c hm))
          (hhd2.trans hr.symm)
      show updatesForAux rid [] (hd :: t) = _
      simp only [updatesForAux, hguardhd, if_neg, Bool.false_eq_true, not_false_iff]
      exact ih c hpwc.2 hct hm hr

/-- `listHas` is list membership. -/
theorem listHas_iff (l : List Value) (v : Value) : listHas l v = true ↔ v ∈ l := by
  unfold listHas
  rw [List.any_eq_true]
  constructor
  · rintro ⟨x, hx, he⟩
    have hxv : x = v := by simpa using he
    exact hxv ▸ hx
  · intro hv
    exact ⟨v, hv, by simp⟩

/-- Counting a predicate and its negation exhausts the list. -/
theorem countP_not_add {α : Type} (p : α → Bool) :
    ∀ (l : List α), List.countP (fun a => !p a) l + List.countP p l = l.length := by
  intro l
  induction l with
  | nil => rfl
  | cons a t ih =>
    cases ha : p a <;>
      simp [List.countP_cons, ha] <;> omega

/-- Pairwise-disjoint targets make the collected delete ids duplicate-free. -/
theorem approvedDeleteIds_nodup (changes : List Change)
    (hpw : changes.Pairwise disjTargets) : (approvedDeleteIds changes).Nodup := by
  unfold approvedDeleteIds
  apply List.pairwise_map.mpr
  apply List.Pairwise.imp_of_mem ?_ (hpw.filter delMatches)
  intro a b ha hb hab
  exact hab (relevant_of_del a (List.mem_filter.mp ha).2)
    (relevant_of_del b (List.mem_filter.mp hb).2)

/-- Under pairwise-disjoint targets, the target of a materializable UPDATE
is never also a collected delete id. -/
theorem upd_target_not_deleted (changes : List Change)
    (hpw : changes.Pairwise disjTargets) (c : Change) (hc : c ∈ changes)
    (hm : updMatches c = true) :
    listHas (approvedDeleteIds changes) c.sql_row_id = false := by
  rw [Bool.eq_false_iff]
  intro h
  have hmem := (listHas_iff _ _).mp h
  unfold approvedDeleteIds at hmem
  rcases List.mem_map.mp hmem with ⟨d, hd, hid⟩
  have hdel : delMatches d = true := (List.mem_filter.mp hd).2
  have hdc : d ∈ changes := (List.mem_filter.mp hd).1
  have hne : c ≠ d := by
    intro he
    have h1 := action_of_upd c hm
    rw [he, action_of_del d hdel] at h1
    exact absurd h1 (by decide)
  exact (List.Pairwise.forall disjTargets_symmetric hpw hc hdc hne
    (relevant_of_upd c hm) (relevant_of_del d hdel)) hid.symm

/-- A duplicate-free sublist-by-membership of a duplicate-free list is
counted exactly by the membership filter. -/
theorem filter_mem_length (ids del : List Value) (hids : ids.Nodup) (hdel : del.Nodup)
    (hsub : ∀ d ∈ del, d ∈ ids) :
    (ids.filter (fun v => listHas del v)).length = del.length := by
  have hperm : (ids.filter (fun v => listHas del v)).Perm del := by
    rw [List.perm_ext_iff_of_nodup (hids.filter _) hdel]
    intro a
    constructor
    · intro ha
      exact (listHas_iff del a).mp (List.mem_filter.mp ha).2
    · intro ha
      exact List.mem_filter.mpr ⟨hsub a ha, (listHas_iff del a).mpr ha⟩
  exact hperm.length_eq

/-! ## C1 — the main materialization theorem -/

/-- C1: for every table whose `ID` values are pairwise distinct and every
change list with pairwise-disjoint (approved DELETE / materializable
UPDATE) targets — with each DELETE targeting an existing row, no UPDATE's
changed-field set rewriting the `ID` column, and each UPDATE's after
snapshot a well-formed record (unique keys, a before snapshot present, non
null target ids, fields drawn from the table's columns) — the SQL
materialization produces exactly `|rows| - |deletes|` rows; a surviving
row targeted by no UPDATE passes through unchanged; and a surviving row
targeted by an UPDATE receives exactly the fields whose values differ
between the proposal's before and after snapshots (each such field takes
the after value, every other field keeps its original value).

The last three hypotheses are not used by the proof; they record the
boundary of the pandas model: `hBefore` rules out the `before.get` call on
`None` (an `AttributeError` in the source), `hNonNull` rules out `NaN`
identity values (for which a pandas `==` mask never matches), and
`hColumns` rules out updates naming a nonexistent column (which would
*create* that column in pandas rather than leave the row unchanged). -/
theorem C1_export_sql_materialization (changes : List Change) (rows : List Row)
    (hIds : (rows.map (fun r => pyGet r "ID")).Nodup)
    (hpw : changes.Pairwise disjTargets)
    (hDelSub : ∀ d ∈ approvedDeleteIds changes, d ∈ rows.map (fun r => pyGet r "ID"))
    (hNoId : ∀ c ∈ changes, updMatches c = true → "ID" ∉ (diffOf c).map Prod.fst)
    (hAfterKeys : ∀ c ∈ changes, updMatches c = true → ((diffOf c).map Prod.fst).Nodup)
    (hBefore : ∀ c ∈ changes, updMatches c = true → c.sql_before.isSome)
    (hNonNull : ∀ r ∈ rows, (pyGet r "ID").isSome)
    (hColumns : ∀ c ∈ changes, updMatches c = true →
      ∀ k ∈ (diffOf c).map Prod.fst, ∀ r ∈ rows, k ∈ r.map Prod.fst) :
    (export_sql changes rows).length + (approvedDeleteIds changes).length = rows.length ∧
    (∀ r ∈ rows,
      listHas (approvedDeleteIds changes) (pyGet r "ID") = false →
      (∀ c ∈ changes, ¬(updMatches c = true ∧ c.sql_row_id = pyGet r "ID")) →
      r ∈ export_sql changes rows) ∧
    (∀ r ∈ rows, ∀ c ∈ changes, updMatches c = true → c.sql_row_id = pyGet r "ID" →
      applyFieldUpdates (diffOf c) r ∈ export_sql changes rows ∧
      pyGet (applyFieldUpdates (diffOf c) r) "ID" = pyGet r "ID" ∧
      (∀ k, lookupKV (diffOf c) k = none →
        lookupKV (applyFieldUpdates (diffOf c) r) k = lookupKV r k) ∧
      (∀ k w, lookupKV (diffOf c) k = some w →
        lookupKV (applyFieldUpdates (diffOf c) r) k = (lookupKV r k).map (fun _ => w)) ∧
      (∀ kv ∈ diffOf c, ¬ pyGet (c.sql_before.getD []) kv.1 = kv.2)) := by
  have hid_pres : ∀ r : Row,
      pyGet (applyFieldUpdates (updatesFor changes (pyGet r "ID")) r) "ID" = pyGet r "ID" := by
    intro r
    apply pyGet_applyFieldUpdates_absent
    exact lookupKV_updatesFor_none changes _ "ID" hNoId
  refine ⟨?_, ?_, ?_⟩
  · unfold export_sql
    rw [← List.countP_eq_length_filter, List.countP_map]
    have h2 : List.countP
          ((fun r => !listHas (approvedDeleteIds changes) (pyGet r "ID")) ∘
            (fun r => applyFieldUpdates (updatesFor changes (pyGet r "ID")) r)) rows
        = List.countP (fun r => !listHas (approvedDeleteIds changes) (pyGet r "ID")) rows := by
      apply List.countP_congr
      intro r hr
      simp [Function.comp, hid_pres r]
    have h3 : List.countP (fun r => listHas (approvedDeleteIds changes) (pyGet r "ID")) rows
        = (approvedDeleteIds changes).length := by
      rw [show (fun r => listHas (approvedDeleteIds changes) (pyGet r "ID"))
            = ((fun v => listHas (approvedDeleteIds changes) v) ∘ (fun r => pyGet r "ID"))
          from rfl]
      rw [← List.countP_map, List.countP_eq_length_filter]
      exact filter_mem_length _ _ hIds (approvedDeleteIds_nodup changes hpw) hDelSub
    rw [h2, ← h3]
    exact countP_not_add _ rows
  · intro r hr hdel hnoupd
    unfold export_sql
    apply List.mem_filter.mpr
    constructor
    · have hskip : updatesFor changes (pyGet r "ID") = [] := by
        apply updatesForAux_skip
        intro c hc
        rw [Bool.eq_false_iff]
        intro hg
        rcases Bool.and_eq_true _ _ |>.mp hg with ⟨hmc, hrc⟩
        exact hnoupd c hc ⟨hmc, by simpa using hrc⟩
      have hm2 : applyFieldUpdates (updatesFor changes (pyGet r "ID")) r
          ∈ rows.map (fun r => applyFieldUpdates (updatesFor changes (pyGet r "ID")) r) :=
        List.mem_map_of_mem _ hr
      rw [hskip, applyFieldUpdates_nil r] at hm2
      exact hm2
    · simp [hdel]
  · intro r hr c hc hm hrid
    have hupd_eq : updatesFor changes (pyGet r "ID") = diffOf c := by
      rw [updatesFor_single (pyGet r "ID") changes c hpw hc hm hrid]
      exact dictMerge_nil _ (hAfterKeys c hc hm)
    have hid2 : pyGet (applyFieldUpdates (diffOf c) r) "ID" = pyGet r "ID" := by
      apply pyGet_applyFieldUpdates_absent
      exact lookupKV_eq_none_of_not_mem _ _ (hNoId c hc hm)
    refine ⟨?_, hid2, ?_, ?_, ?_⟩
    · unfold export_sql
      apply List.mem_filter.mpr
      constructor
      · have hm2 : applyFieldUpdates (updatesFor changes (pyGet r "ID")) r
            ∈ rows.map (fun r => applyFieldUpdates (updatesFor changes (pyGet r "ID")) r) :=
          List.mem_map_of_mem _ hr
        rw [hupd_eq] at hm2
        exact hm2
      · rw [hid2, ← hrid]
        simp [upd_target_not_deleted changes hpw c hc hm]
    · intro k hk
      rw [lookupKV_applyFieldUpdates, hk]
      cases lookupKV r k <;> rfl
    · intro k w hk
      rw [lookupKV_applyFieldUpdates, hk]
    · intro kv hkv
      unfold diffOf changedFields at hkv
      have := List.of_mem_filter hkv
      simpa using this

/-- C1, witness: a two-row table, one approved DELETE of row 2 and one
approved UPDATE of row 1 changing only column `A`: the export keeps
`2 - 1 = 1` row, and the updated row 1 is present. -/
theorem C1_export_sql_materialization_witness :
    (export_sql [w1Delete, w1Update] [w1Row1, w1Row2]).length
        + (approvedDeleteIds [w1Delete, w1Update]).length = 2 ∧
    applyFieldUpdates (diffOf w1Update) w1Row1 ∈ export_sql [w1Delete, w1Update] [w1Row1, w1Row2] := by
  have h := C1_export_sql_materialization [w1Delete, w1Update] [w1Row1, w1Row2]
    (by decide) (by decide) (by decide) (by decide) (by decide) (by decide) (by decide)
    (by decide)
  exact ⟨h.1, (h.2.2 w1Row1 (by decide) w1Update (by decide) (by decide) (by decide)).1⟩
